import Mathlib

/-!
Shallow embedding of the `search-product-catalog` and `search-product-vector`
tool handlers of the weltmann-shopware-mcp repository (src/unnamed/part_002
lines 772-1048 and src/unnamed/part_003 lines 761-876), together with the
CSV-backed product model (src/src/plugins/csv.ts).

JavaScript strings are modelled as Lean `String`; `undefined`/missing optional
arguments as `Option`; JS string truthiness (`""` is falsy) as `jsTruthy`.
`String.prototype.toLowerCase` and Unicode NFD decomposition are modelled for
the Basic Latin and Latin-1 Supplement ranges, which cover the catalog data.
-/

namespace Weltmann

/-- Model of the character whitespace class `\s` (ASCII part, which is all the
handler's inputs use): space, tab, LF, VT, FF, CR. -/
def isWs (c : Char) : Bool :=
  c = ' ' || c = '\t' || c = '\n' || c = '\x0b' || c = '\x0c' || c = '\r'

/-- Model of `String.prototype.toLowerCase` on Basic Latin and the Latin-1
Supplement: `A`-`Z` and `À`-`Þ` (skipping `×`) map down by 0x20. -/
def jsToLower (c : Char) : Char :=
  let n := c.toNat
  if 65 ≤ n ∧ n ≤ 90 then Char.ofNat (n + 32)
  else if (192 ≤ n ∧ n ≤ 214) ∨ (216 ≤ n ∧ n ≤ 222) then Char.ofNat (n + 32)
  else c

/-- `toLowerCase` lifted to strings. -/
def jsLowerStr (s : String) : String :=
  String.mk (s.data.map jsToLower)

/-- Model of Unicode NFD decomposition (`String.prototype.normalize('NFD')`)
for the precomposed Latin-1 letters: each decomposes into its base letter
followed by a combining mark in U+0300-U+036F.  Other characters are atomic. -/
def nfdChar (c : Char) : List Char :=
  match c with
  | 'à' => ['a', '̀'] | 'á' => ['a', '́'] | 'â' => ['a', '̂']
  | 'ã' => ['a', '̃'] | 'ä' => ['a', '̈'] | 'å' => ['a', '̊']
  | 'ç' => ['c', '̧']
  | 'è' => ['e', '̀'] | 'é' => ['e', '́'] | 'ê' => ['e', '̂']
  | 'ë' => ['e', '̈']
  | 'ì' => ['i', '̀'] | 'í' => ['i', '́'] | 'î' => ['i', '̂']
  | 'ï' => ['i', '̈']
  | 'ñ' => ['n', '̃']
  | 'ò' => ['o', '̀'] | 'ó' => ['o', '́'] | 'ô' => ['o', '̂']
  | 'õ' => ['o', '̃'] | 'ö' => ['o', '̈']
  | 'ù' => ['u', '̀'] | 'ú' => ['u', '́'] | 'û' => ['u', '̂']
  | 'ü' => ['u', '̈']
  | 'ý' => ['y', '́'] | 'ÿ' => ['y', '̈']
  | 'À' => ['A', '̀'] | 'Á' => ['A', '́'] | 'Â' => ['A', '̂']
  | 'Ã' => ['A', '̃'] | 'Ä' => ['A', '̈'] | 'Å' => ['A', '̊']
  | 'Ç' => ['C', '̧']
  | 'È' => ['E', '̀'] | 'É' => ['E', '́'] | 'Ê' => ['E', '̂']
  | 'Ë' => ['E', '̈']
  | 'Ì' => ['I', '̀'] | 'Í' => ['I', '́'] | 'Î' => ['I', '̂']
  | 'Ï' => ['I', '̈']
  | 'Ñ' => ['N', '̃']
  | 'Ò' => ['O', '̀'] | 'Ó' => ['O', '́'] | 'Ô' => ['O', '̂']
  | 'Õ' => ['O', '̃'] | 'Ö' => ['O', '̈']
  | 'Ù' => ['U', '̀'] | 'Ú' => ['U', '́'] | 'Û' => ['U', '̂']
  | 'Ü' => ['U', '̈']
  | 'Ý' => ['Y', '́']
  | _ => [c]

/-- Combining Diacritical Marks block U+0300-U+036F, the range removed by the
handler's regex `/[̀-ͯ]/g`. -/
def isCombiningMark (c : Char) : Bool :=
  decide (768 ≤ c.toNat) && decide (c.toNat ≤ 879)

/-- `normalizeText` on a plain string (part_002 lines 822-823, string case):
`text.toLowerCase().normalize('NFD').replace(/[̀-ͯ]/g, '')`. -/
def normalizeStr (s : String) : String :=
  String.mk (((s.data.map jsToLower).flatMap nfdChar).filter (fun c => !(isCombiningMark c)))

/-- `normalizeText` (part_002 lines 822-823): `(text ?? '')` then lowercase,
NFD-decompose and strip combining marks.  `none` models both `null` and
`undefined`. -/
def normalizeText (t : Option String) : String :=
  normalizeStr (t.getD "")

/-- JS string truthiness of an optional string: `undefined`, `null` and `""`
are falsy, every other string is truthy. -/
def jsTruthy : Option String → Bool
  | none => false
  | some s => s != ""

/-- Model of `String.prototype.trim`: drop leading and trailing whitespace. -/
def jsTrim (s : String) : String :=
  String.mk (((s.data.dropWhile isWs).reverse.dropWhile isWs).reverse)

/-- Helper for `splitWs`: accumulate the current token (reversed) while
scanning. -/
def splitWsAux : List Char → List Char → List String
  | [], acc => if acc.isEmpty then [] else [String.mk acc.reverse]
  | c :: rest, acc =>
    if isWs c then
      if acc.isEmpty then splitWsAux rest []
      else String.mk acc.reverse :: splitWsAux rest []
    else splitWsAux rest (c :: acc)

/-- Model of `split(/\s+/)`: split on runs of whitespace.  JS additionally
emits an empty leading/trailing token when the string starts or ends with
whitespace; both call sites discard such tokens (a `length >= 2`/`length > 1`
filter follows), so they are dropped here. -/
def splitWs (s : String) : List String :=
  splitWsAux s.data []

/-- Boolean substring test used for `String.prototype.includes`:
`listIsPrefixOfB n h` is true iff `n` is a prefix of `h`. -/
def listIsPrefixOfB : List Char → List Char → Bool
  | [], _ => true
  | _ :: _, [] => false
  | a :: as, b :: bs => a = b && listIsPrefixOfB as bs

/-- `listIsInfixOfB n h` is true iff `n` occurs contiguously in `h`. -/
def listIsInfixOfB (needle : List Char) : List Char → Bool
  | [] => needle.isEmpty
  | b :: t => listIsPrefixOfB needle (b :: t) || listIsInfixOfB needle t

/-- Model of `hay.includes(needle)`. -/
def jsIncludes (hay needle : String) : Bool :=
  listIsInfixOfB needle.data hay.data

/-- Catalog record as produced by the CSV loader (src/src/plugins/csv.ts):
every field is a non-null string (the loader maps each field through
`?.trim() || ''`). -/
structure Product where
  productNumber : String
  productName : String
  vehicleBrand : String
  vehicleModel : String
  vehicleVariant : String
deriving DecidableEq, Repr

/-- Display projection built at part_002 lines 874-880.  The `?? ''`
fallbacks there are identity because the CSV loader guarantees non-null
strings. -/
structure ProductView where
  productNumber : String
  name : String
  vehicleBrand : String
  vehicleModel : String
  vehicleVariant : String
deriving DecidableEq, Repr

def toView (p : Product) : ProductView :=
  ⟨p.productNumber, p.productName, p.vehicleBrand, p.vehicleModel, p.vehicleVariant⟩

/-- The `structuredContent` payload shape of the catalog tool. -/
structure MatchResult where
  total : Nat
  products : List ProductView
deriving DecidableEq, Repr

/-- A tool response: the structured payload plus the single text block of the
`content` array. -/
structure ToolResponse where
  structuredContent : MatchResult
  text : String
deriving DecidableEq, Repr

/-- Resolved vehicle fitment: the values of `parsedBrand`, `parsedModel`,
`parsedVariant` after part_002 lines 800-819. -/
structure Fitment where
  brand : Option String
  model : Option String
  variant : Option String
deriving DecidableEq, Repr

/-- part_002 lines 800-819: fill missing structured fields from `vehicleText`
(split on whitespace runs; `token[0]` to brand, `token[1]` to model, the rest
joined to variant, each only when the field is falsy and at least two tokens
exist), then `?.trim()` each field. -/
def resolveFitment (vehicleBrand vehicleModel vehicleVariant vehicleText : Option String) :
    Fitment :=
  let step :=
    match vehicleText with
    | some t =>
      if t != "" then
        let vehicleParts := splitWs (jsTrim t)
        if vehicleParts.length ≥ 2 then
          let b := if jsTruthy vehicleBrand then vehicleBrand else some (vehicleParts.getD 0 "")
          let m := if jsTruthy vehicleModel then vehicleModel else some (vehicleParts.getD 1 "")
          let v := if !(jsTruthy vehicleVariant) && decide (2 < vehicleParts.length)
                   then some (String.intercalate " " (vehicleParts.drop 2))
                   else vehicleVariant
          Fitment.mk b m v
        else Fitment.mk vehicleBrand vehicleModel vehicleVariant
      else Fitment.mk vehicleBrand vehicleModel vehicleVariant
    | none => Fitment.mk vehicleBrand vehicleModel vehicleVariant
  Fitment.mk (step.brand.map jsTrim) (step.model.map jsTrim) (step.variant.map jsTrim)

/-- part_002 line 829: tokens of the lowercased `name`, keeping only tokens
longer than one character. -/
def searchWords (name : String) : List String :=
  (splitWs (jsLowerStr name)).filter (fun w => decide (1 < w.length))

/-- part_002 lines 830-834: a record passes the name filter iff the normalized
product name contains every search word. -/
def namePass (name : String) (p : Product) : Bool :=
  (searchWords name).all (fun w => jsIncludes (normalizeStr p.productName) (jsLowerStr w))

def nameFilter (name : String) (catalog : List Product) : List Product :=
  catalog.filter (namePass name)

/-- part_002 lines 837-842: brand filter, applied only when the normalized
brand is non-empty; substring match on the normalized `vehicleBrand`. -/
def brandFilter (pb : Option String) (hits : List Product) : List Product :=
  let normalizedBrand := normalizeText pb
  if normalizedBrand != "" then
    hits.filter (fun p => jsIncludes (normalizeStr p.vehicleBrand) normalizedBrand)
  else hits

/-- part_002 lines 845-850: model filter, same shape as the brand filter. -/
def modelFilter (pm : Option String) (hits : List Product) : List Product :=
  let normalizedModel := normalizeText pm
  if normalizedModel != "" then
    hits.filter (fun p => jsIncludes (normalizeStr p.vehicleModel) normalizedModel)
  else hits

/-- part_002 line 856: the synonym list meaning "the unadorned/standard
trim". -/
def baseVariantTerms : List String := ["standard", "base", "basic", "base variant"]

/-- part_002 lines 857-860: the request asks for the base variant when the
normalized variant contains one of the normalized synonym terms. -/
def isBaseVariantRequest (normalizedVariant : String) : Bool :=
  (baseVariantTerms.map (fun term => normalizeStr term)).any
    (fun term => jsIncludes normalizedVariant term)

/-- part_002 line 864: `!p.vehicleVariant || !p.vehicleVariant.trim()` — the
variant is absent or whitespace-only. -/
def isBlankVariant (s : String) : Bool :=
  s == "" || jsTrim s == ""

/-- part_002 lines 853-872: variant filter.  In base-variant mode it keeps
blank-variant records; otherwise it substring-matches the normalized
variant. -/
def variantFilter (pv : Option String) (hits : List Product) : List Product :=
  if jsTruthy pv then
    let normalizedVariant := normalizeText pv
    if normalizedVariant != "" then
      if isBaseVariantRequest normalizedVariant then
        hits.filter (fun p => isBlankVariant p.vehicleVariant)
      else
        hits.filter (fun p => jsIncludes (normalizeStr p.vehicleVariant) normalizedVariant)
    else hits
  else hits

/-- The four AND-composed filter stages of part_002 lines 828-872. -/
def catalogHits (catalog : List Product) (name : String) (f : Fitment) : List Product :=
  variantFilter f.variant (modelFilter f.model (brandFilter f.brand (nameFilter name catalog)))

/-- part_002 lines 874-880: the surviving records projected for display. -/
def allProductsOf (catalog : List Product) (name : String) (f : Fitment) : List ProductView :=
  (catalogHits catalog name f).map toView

/-- part_002 lines 883-890 under the typed `z.number()` schema: the display
cap is the caller's limit (default 20) clamped into `[1, 100]`.  (The
string-coercion fallback of lines 884-889 cannot trigger for a `number`
input.) -/
def safeLimit (limit : Option Int) : Int :=
  min (max (limit.getD 20) 1) 100

/-- First-occurrence deduplication with an explicit seen set, modelling JS
`Set` insertion order as in `[...new Set(xs)]`. -/
def dedupFirstAux (seen : List String) : List String → List String
  | [] => []
  | x :: xs =>
    if seen.contains x then dedupFirstAux seen xs
    else x :: dedupFirstAux (x :: seen) xs

def dedupFirst (xs : List String) : List String :=
  dedupFirstAux [] xs

/-- Boolean lexicographic `≤` on code points, used to model both
`Array.prototype.sort()`'s default string comparison and `localeCompare`
(the two coincide on the catalog's ASCII model and variant names). -/
def clLeB : List Char → List Char → Bool
  | [], _ => true
  | _ :: _, [] => false
  | a :: as, b :: bs =>
    if a.toNat < b.toNat then true
    else if b.toNat < a.toNat then false
    else clLeB as bs

def strLeB (a b : String) : Bool :=
  clLeB a.data b.data

/-- Model of `a.localeCompare(b) <= 0` (part_002 line 921) under the ICU
root-locale collation, restricted to the catalog's character range: the
primary comparison is case-insensitive (both strings folded through
`toLowerCase`, compared in code-point order, a strict prefix sorting
first), and when the folds coincide the tie is broken at the first
differing position with the lowercase letter first (ICU's default
lowercase-before-uppercase tertiary weight).  This matches Node's ICU
collation on ASCII model names such as `golf` vs `Polo` (case-insensitive
alphabetical, unlike raw code-point order); names carrying diacritics are
ordered by code point at the primary level, an approximation. -/
def localeCompareLe (a b : String) : Bool :=
  if a.data.map jsToLower = b.data.map jsToLower then clLeB b.data a.data
  else clLeB (a.data.map jsToLower) (b.data.map jsToLower)

/-- Stable insertion of `x` into a sorted list. -/
def insSorted {α : Type} (le : α → α → Bool) (x : α) : List α → List α
  | [] => [x]
  | y :: ys => if le x y then x :: y :: ys else y :: insSorted le x ys

/-- Stable insertion sort, modelling `Array.prototype.sort` (stable per the
ECMAScript specification). -/
def sortByLe {α : Type} (le : α → α → Bool) : List α → List α
  | [] => []
  | x :: xs => insSorted le x (sortByLe le xs)

/-- part_002 lines 896-898: distinct non-blank models of the match set,
sorted. -/
def uniqueModelsOf (ps : List ProductView) : List String :=
  sortByLe strLeB
    ((dedupFirst (ps.map (fun p => p.vehicleModel))).filter
      (fun model => model != "" && jsTrim model != ""))

/-- Per-model data accumulated at part_002 lines 902-918: the `Set` of
non-blank variants (insertion order) and the blank-variant flag. -/
structure ModelData where
  variants : List String
  hasBaseVariant : Bool
deriving DecidableEq, Repr

/-- part_002 lines 906, 913-917: a non-blank variant joins the model's
variant set (if new); a blank variant sets `hasBaseVariant`. -/
def addVariant (d : ModelData) : Option String → ModelData
  | some s =>
    { d with variants := if d.variants.contains s then d.variants else d.variants ++ [s] }
  | none => { d with hasBaseVariant := true }

/-- part_002 line 906: `p.vehicleVariant && p.vehicleVariant.trim() ?
p.vehicleVariant : null`. -/
def variantOpt (p : ProductView) : Option String :=
  if p.vehicleVariant != "" && jsTrim p.vehicleVariant != "" then some p.vehicleVariant
  else none

/-- Insertion into the insertion-ordered model map (JS `Map` semantics:
update the existing entry, else append a fresh one). -/
def mapInsert (m : List (String × ModelData)) (key : String) (v : Option String) :
    List (String × ModelData) :=
  match m with
  | [] => [(key, addVariant ⟨[], false⟩ v)]
  | (k, d) :: rest =>
    if k = key then (k, addVariant d v) :: rest
    else (k, d) :: mapInsert rest key v

/-- part_002 lines 902-918: the `modelVariantMap` built by the `forEach`. -/
def buildModelMap (ps : List ProductView) : List (String × ModelData) :=
  ps.foldl (fun m p => mapInsert m p.vehicleModel (variantOpt p)) []

/-- part_002 lines 922-931: render one model line, `base variant` label
first, then the set's variants in insertion order. -/
def renderModelEntry (e : String × ModelData) : String :=
  let variantList := (if e.2.hasBaseVariant then ["base variant"] else []) ++ e.2.variants
  let variantText :=
    if decide (0 < variantList.length) then
      " (" ++ String.intercalate ", " variantList ++ ")"
    else ""
  " " ++ e.1 ++ variantText

/-- part_002 lines 920-943: the MULTI_MODEL prompt text; the entries are
sorted with `localeCompare` (line 921), modelled by `localeCompareLe`. -/
def multiModelText (name brand : String) (ps : List ProductView) : String :=
  let modelList := String.intercalate "\n"
    ((sortByLe (fun a b => localeCompareLe a.1 b.1) (buildModelMap ps)).map renderModelEntry)
  "I found " ++ name ++ " for these " ++ brand ++ " models:\n" ++ modelList ++
    "\n\nWhich model and variant is your vehicle?"

/-- part_002 lines 950-959: the variant list of the single remaining model:
`base variant` first when some record has a blank variant, then the distinct
non-blank variants, sorted. -/
def variantListOf (ps : List ProductView) : List String :=
  let hasBaseVariant := ps.any (fun p => isBlankVariant p.vehicleVariant)
  let uniqueVariants := sortByLe strLeB
    ((dedupFirst (ps.map (fun p => p.vehicleVariant))).filter
      (fun variant => variant != "" && jsTrim variant != ""))
  (if hasBaseVariant then ["base variant"] else []) ++ uniqueVariants

/-- part_002 lines 961-975: the MULTI_VARIANT prompt text. -/
def multiVariantText (name brand model : String) (ps : List ProductView) : String :=
  let variantDisplay := String.intercalate "\n"
    ((variantListOf ps).map (fun variant => " " ++ variant))
  "I found " ++ name ++ " for these " ++ brand ++ " " ++ model ++ " variants:\n" ++
    variantDisplay ++ "\n\nCan you specify which variant your vehicle is?"

/-- part_002 lines 985, 1014: strip the manufacturer prefix
(`/^JAEGER automotive\s*/i`) and trim. -/
def stripManufacturer (s : String) : String :=
  let pre := "jaeger automotive".data
  if (s.data.take pre.length).map jsToLower = pre then
    String.mk ((s.data.drop pre.length).dropWhile isWs)
  else s

def cleanNameOf (s : String) : String :=
  jsTrim (stripManufacturer s)

/-- part_002 lines 986, 1015: `${brand} ${model} ${variant}` trimmed. -/
def vehicleInfoOf (p : ProductView) : String :=
  jsTrim (p.vehicleBrand ++ " " ++ p.vehicleModel ++ " " ++ p.vehicleVariant)

/-- Insertion into the insertion-ordered display-group map (part_002 lines
989-992). -/
def groupInsert (groups : List (String × List String)) (key num : String) :
    List (String × List String) :=
  match groups with
  | [] => [(key, [num])]
  | (k, ns) :: rest =>
    if k = key then (k, ns ++ [num]) :: rest
    else (k, ns) :: groupInsert rest key num

/-- part_002 lines 982-993: group the displayed subset by display key. -/
def buildGroups (ps : List ProductView) : List (String × List String) :=
  ps.foldl (fun g p => groupInsert g (cleanNameOf p.name ++ " for " ++ vehicleInfoOf p) p.productNumber) []

/-- part_002 lines 995-1009: the multi-result text over the displayed
subset. -/
def multiResultText (name : String) (total : Nat) (ps : List ProductView) : String :=
  let variantLines := String.intercalate "\n"
    ((buildGroups ps).map (fun e => " " ++ e.1 ++ " (" ++ String.intercalate ", " e.2 ++ ")"))
  "Found " ++ toString total ++ " items for '" ++ name ++ "':\n" ++ variantLines

/-- part_002 lines 1012-1025: the single-result text. -/
def singleResultText (p : ProductView) : String :=
  "Found one product: " ++ cleanNameOf p.name ++ " for " ++ vehicleInfoOf p ++
    " (" ++ p.productNumber ++ ")"

/-- part_002 line 1033: the empty-result text. -/
def noneText (name : String) : String :=
  "No products found for \"" ++ name ++ "\"."

/-- part_002 line 894: the disambiguation guard — no variant
supplied/resolved, a non-empty match set, brand and model both truthy. -/
def disambigGuard (f : Fitment) (total : Nat) : Bool :=
  !(jsTruthy f.variant) && decide (0 < total) && jsTruthy f.brand && jsTruthy f.model

/-- part_002 lines 894-946: the MULTI_MODEL branch fires. -/
def multiModelFires (catalog : List Product) (name : String) (f : Fitment) : Bool :=
  let ps := allProductsOf catalog name f
  disambigGuard f ps.length && decide (1 < (uniqueModelsOf ps).length)

/-- part_002 lines 894, 948-977: the MULTI_VARIANT branch fires. -/
def multiVariantFires (catalog : List Product) (name : String) (f : Fitment) : Bool :=
  let ps := allProductsOf catalog name f
  disambigGuard f ps.length && decide ((uniqueModelsOf ps).length = 1) &&
    decide (1 < (variantListOf ps).length)

/-- The `search-product-catalog` handler (part_002 lines 798-1047):
resolve the fitment, run the four filters, apply the display cap, then
branch into the disambiguation state machine or the cardinality-based
result formatting. -/
def searchCatalog (catalog : List Product) (name : String) (limit : Option Int)
    (vehicleBrand vehicleModel vehicleVariant vehicleText : Option String) : ToolResponse :=
  let f := resolveFitment vehicleBrand vehicleModel vehicleVariant vehicleText
  let allProducts := allProductsOf catalog name f
  let total := allProducts.length
  let productsForResponse := allProducts.take (safeLimit limit).toNat
  let structured : MatchResult := ⟨total, productsForResponse⟩
  if multiModelFires catalog name f then
    ⟨⟨0, []⟩, multiModelText name (f.brand.getD "") allProducts⟩
  else if multiVariantFires catalog name f then
    ⟨⟨0, []⟩, multiVariantText name (f.brand.getD "") (f.model.getD "") allProducts⟩
  else if 1 < total then
    ⟨structured, multiResultText name total productsForResponse⟩
  else if total = 1 then
    ⟨structured, singleResultText (allProducts.getD 0 ⟨"", "", "", "", ""⟩)⟩
  else
    ⟨structured, noneText name⟩

/-- Record shape stored in the vector index (part_003 lines 772-783). -/
structure VProduct where
  productNumber : String
  productName : String
  vehicleBrand : String
  vehicleModel : String
  vehicleVariant : String
deriving DecidableEq, Repr

/-- The vector-path structured payload. -/
structure VMatchResult where
  total : Nat
  products : List VProduct
deriving DecidableEq, Repr

structure VToolResponse where
  structuredContent : VMatchResult
  text : String
deriving DecidableEq, Repr

/-- The two awaited upstream calls of the vector handler (part_003 lines
788-800): the embedding computation followed by the index query.  An
`Except.error` models a thrown exception. -/
def upstream {E : Type} (embedResult : Except String E)
    (index : E → Except String (List VProduct)) : Except String (List VProduct) :=
  match embedResult with
  | Except.error msg => Except.error msg
  | Except.ok e => index e

/-- part_003 lines 826, 843: strip the manufacturer prefix and trim. -/
def vCleanName (s : String) : String :=
  cleanNameOf s

/-- part_003 lines 823-838: one line per hit in the multi-result text. -/
def vLine (p : VProduct) : String :=
  "• [" ++ p.productNumber ++ "] " ++ vCleanName p.productName ++ " – " ++
    p.vehicleBrand ++ " " ++ p.vehicleModel ++ " " ++ p.vehicleVariant

/-- The `search-product-vector` handler (part_003 lines 785-875): embed the
query, query the index, post-filter by brand/model (and variant when
supplied), then format; any upstream exception is caught and converted into
a zero-result response. -/
def searchVector {E : Type} (embedResult : Except String E)
    (index : E → Except String (List VProduct))
    (name vehicleBrand vehicleModel : String) (vehicleVariant : Option String) :
    VToolResponse :=
  match upstream embedResult index with
  | Except.error msg =>
    ⟨⟨0, []⟩, "Vector search failed: " ++ msg⟩
  | Except.ok rawHits =>
    let hits1 := rawHits.filter (fun r =>
      jsIncludes (jsLowerStr r.vehicleBrand) (jsLowerStr vehicleBrand) &&
      jsIncludes (jsLowerStr r.vehicleModel) (jsLowerStr vehicleModel))
    let hits :=
      match vehicleVariant with
      | some v =>
        if v != "" then
          hits1.filter (fun r => jsIncludes (jsLowerStr r.vehicleVariant) (jsLowerStr v))
        else hits1
      | none => hits1
    let total := hits.length
    let structured : VMatchResult := ⟨total, hits⟩
    if 1 < total then
      ⟨structured, "Found " ++ toString total ++ " items for '" ++ name ++ "':\n" ++
        String.intercalate "\n" (hits.map vLine)⟩
    else if total = 1 then
      let p := hits.getD 0 ⟨"", "", "", "", ""⟩
      ⟨structured, "Found one product: [" ++ p.productNumber ++ "] " ++
        vCleanName p.productName ++ " – " ++ p.vehicleBrand ++ " " ++ p.vehicleModel ++
        " " ++ p.vehicleVariant⟩
    else
      ⟨structured, "No products found for \"" ++ name ++ "\"."⟩

/-- Declarative (from-scratch) description of a model's distinct non-blank
variants in order of first appearance in the match set; to be proven equal to
what the imperative `modelVariantMap` fold accumulates. -/
def specModelVariants (ps : List ProductView) (m : String) : List String :=
  dedupFirst
    (((ps.filter (fun p => p.vehicleModel == m)).map (fun p => p.vehicleVariant)).filter
      (fun v => v != "" && jsTrim v != ""))

/-- Declarative description of a model's entry in the `modelVariantMap`. -/
def specModelData (ps : List ProductView) (m : String) : ModelData :=
  ⟨specModelVariants ps m,
   (ps.filter (fun p => p.vehicleModel == m)).any (fun p => isBlankVariant p.vehicleVariant)⟩

/-- A fixture catalog whose match set spans two models, with the variants of
`Golf` appearing in the order `Z`, `A`. -/
def mmCatalog : List Product :=
  [⟨"A1", "Brake Pad", "VW", "Golf", "Z"⟩,
   ⟨"A2", "Brake Pad", "VW", "Golf", "A"⟩,
   ⟨"A3", "Brake Pad", "VW", "Golf Plus", ""⟩]

/-- A fixture catalog with one model and the variant set `{"", "Alpha"}`. -/
def mvCatalog : List Product :=
  [⟨"A1", "Brake Pad", "VW", "Golf", ""⟩,
   ⟨"A2", "Brake Pad", "VW", "Golf", "Alpha"⟩]

/-- The single-record fixture catalog of the end-to-end scenario. -/
def c6Catalog : List Product :=
  [⟨"A1", "Brake Pad Front", "VW", "Golf", ""⟩]

/-- Fixture hits for the base-variant synonym filter: a blank-variant record
and a record whose non-blank variant contains the word `Base`. -/
def c3Hits : List Product :=
  [⟨"B1", "Towbar", "VW", "Golf", ""⟩,
   ⟨"B2", "Towbar", "VW", "Golf", "Base-X"⟩]

end Weltmann

namespace Weltmann

theorem normalizeStr_example : normalizeStr "É é" = "e e" := by decide

theorem splitWs_example : splitWs " Audi  A4 Avant " = ["Audi", "A4", "Avant"] := by decide

theorem jsIncludes_example : jsIncludes "brake pad front" "pad" = true := by decide

/-- C9: the text normalizer is a total function of its (possibly absent)
input; it maps an absent input to `""` and identifies accented with
unaccented forms and upper with lower case: `normalize("É é") ==
normalize("e e")`. -/
theorem normalizeText_total_diacritics :
    normalizeText none = "" ∧ normalizeText (some "É é") = normalizeText (some "e e") :=
  ⟨rfl, by decide⟩

/-- C4: the name filter is conjunctive — a record survives it iff every
token of the search words (tokens of the lowercased query longer than one
character) is a substring of the record's normalized product name; a record
containing only some of the tokens never passes. -/
theorem nameFilter_conjunctive (name : String) (catalog : List Product) (p : Product) :
    p ∈ nameFilter name catalog ↔
      p ∈ catalog ∧ ∀ w ∈ searchWords name,
        jsIncludes (normalizeStr p.productName) (jsLowerStr w) = true := by
  simp [nameFilter, namePass, List.mem_filter, List.all_eq_true]

/-- C6 counterexample: on the spec's end-to-end scenario the returned text
has a single space before the SKU (the code trims the
`brand model variant` string), so it does not begin with the claimed
`"... VW Golf  (A1)"` (double space). -/
theorem singleMatch_doubleSpace_cex :
    (searchCatalog c6Catalog "brake pad" none (some "VW") (some "Golf") none none).structuredContent.total = 1 ∧
    listIsPrefixOfB "Found one product: Brake Pad Front for VW Golf  (A1)".data
      (searchCatalog c6Catalog "brake pad" none (some "VW") (some "Golf") none none).text.data = false := by
  decide

/-- C6 (amended): on the end-to-end scenario the search returns
`total == 1` and the text `"Found one product: Brake Pad Front for VW Golf
(A1)"` — the `<brand> <model> <variant>` segment is trimmed, so a blank
variant leaves a single space before the SKU. -/
theorem singleMatch_text :
    searchCatalog c6Catalog "brake pad" none (some "VW") (some "Golf") none none =
      ⟨⟨1, [⟨"A1", "Brake Pad Front", "VW", "Golf", ""⟩]⟩,
       "Found one product: Brake Pad Front for VW Golf (A1)"⟩ := by
  decide

/-- C7: fitment resolution never overwrites an explicitly supplied
(truthy) field with a value parsed from `vehicleText` (each supplied field
survives, only trimmed), and when `vehicleText` splits into fewer than two
tokens no field at all is filled from it. -/
theorem resolveFitment_explicit_wins (b m v : Option String) (t : String) :
    (jsTruthy b = true → (resolveFitment b m v (some t)).brand = b.map jsTrim) ∧
    (jsTruthy m = true → (resolveFitment b m v (some t)).model = m.map jsTrim) ∧
    (jsTruthy v = true → (resolveFitment b m v (some t)).variant = v.map jsTrim) ∧
    ((splitWs (jsTrim t)).length < 2 → resolveFitment b m v (some t) = resolveFitment b m v none) := by
  refine ⟨?_, ?_, ?_, ?_⟩ <;> intro h <;>
    by_cases ht : (t != "") = true <;>
      by_cases hp : 2 ≤ (splitWs (jsTrim t)).length <;>
        simp [resolveFitment, ht, hp, h] <;> omega

/-- C7 witness. -/
theorem resolveFitment_explicit_wins_witness :
    (resolveFitment (some "BMW") none none (some "Audi A4 Avant")).brand = some "BMW" ∧
    resolveFitment none none none (some "Audi") = resolveFitment none none none none := by
  constructor
  · exact ((resolveFitment_explicit_wins (some "BMW") none none "Audi A4 Avant").1
      (by decide)).trans (by decide)
  · exact (resolveFitment_explicit_wins none none none "Audi").2.2.2 (by decide)

/-- C8: when either upstream call of the vector path (embedding or index)
raises, the handler does not propagate the exception: it returns a
success-shaped response with `{total: 0, products: []}` and a text
mentioning the failure. -/
theorem vector_failure_zero_result {E : Type} (embedResult : Except String E)
    (index : E → Except String (List VProduct)) (name vehicleBrand vehicleModel : String)
    (vehicleVariant : Option String) (msg : String)
    (h : upstream embedResult index = Except.error msg) :
    searchVector embedResult index name vehicleBrand vehicleModel vehicleVariant =
      ⟨⟨0, []⟩, "Vector search failed: " ++ msg⟩ := by
  simp [searchVector, h]

/-- C8 witness. -/
theorem vector_failure_zero_result_witness :
    searchVector (Except.error "boom" : Except String Unit) (fun _ => Except.ok [])
      "brake pad" "VW" "Golf" none = ⟨⟨0, []⟩, "Vector search failed: boom"⟩ :=
  vector_failure_zero_result (Except.error "boom") (fun _ => Except.ok [])
    "brake pad" "VW" "Golf" none "boom" rfl

/-- C10: the limit parameter does not influence the disambiguation output —
when MULTI_MODEL or MULTI_VARIANT fires, two runs differing only in the
limit produce identical responses, because the enumeration is computed over
the full filtered match set, not the capped display subset. -/
theorem disambiguation_limit_independent (catalog : List Product) (name : String)
    (l1 l2 : Option Int) (b m v t : Option String)
    (h : (multiModelFires catalog name (resolveFitment b m v t) ||
          multiVariantFires catalog name (resolveFitment b m v t)) = true) :
    searchCatalog catalog name l1 b m v t = searchCatalog catalog name l2 b m v t := by
  by_cases hm : multiModelFires catalog name (resolveFitment b m v t) = true
  · simp [searchCatalog, hm]
  · have hv : multiVariantFires catalog name (resolveFitment b m v t) = true := by
      rcases Bool.or_eq_true_iff.mp h with h' | h'
      · exact absurd h' hm
      · exact h'
    simp [searchCatalog, hm, hv]

theorem mem_dedupFirstAux (x : String) :
    ∀ (xs seen : List String), x ∈ dedupFirstAux seen xs ↔ x ∈ xs ∧ x ∉ seen := by
  intro xs
  induction xs with
  | nil =>
    intro seen
    simp [dedupFirstAux]
  | cons y ys ih =>
    intro seen
    simp only [dedupFirstAux]
    by_cases hy : y ∈ seen
    · rw [if_pos (by simpa using hy), ih seen]
      simp only [List.mem_cons]
      constructor
      · rintro ⟨hx, hns⟩
        exact ⟨Or.inr hx, hns⟩
      · rintro ⟨rfl | hx, hns⟩
        · exact absurd hy hns
        · exact ⟨hx, hns⟩
    · rw [if_neg (by simpa using hy)]
      simp only [List.mem_cons, ih (y :: seen)]
      constructor
      · rintro (rfl | ⟨hx, hns⟩)
        · exact ⟨Or.inl rfl, hy⟩
        · exact ⟨Or.inr hx, fun hc => hns (Or.inr hc)⟩
      · rintro ⟨rfl | hx, hns⟩
        · exact Or.inl rfl
        · by_cases hxy : x = y
          · exact Or.inl hxy
          · exact Or.inr ⟨hx, fun hc => hc.elim hxy hns⟩

theorem mem_dedupFirst (x : String) (xs : List String) :
    x ∈ dedupFirst xs ↔ x ∈ xs := by
  simp [dedupFirst, mem_dedupFirstAux]

theorem nodup_dedupFirstAux :
    ∀ (xs seen : List String), (dedupFirstAux seen xs).Nodup := by
  intro xs
  induction xs with
  | nil =>
    intro seen
    simp [dedupFirstAux]
  | cons y ys ih =>
    intro seen
    simp only [dedupFirstAux]
    by_cases hy : y ∈ seen
    · rw [if_pos (by simpa using hy)]
      exact ih seen
    · rw [if_neg (by simpa using hy)]
      refine List.nodup_cons.mpr ⟨fun hc => ?_, ih (y :: seen)⟩
      exact ((mem_dedupFirstAux y ys (y :: seen)).mp hc).2 (List.mem_cons_self y seen)

theorem nodup_dedupFirst (xs : List String) : (dedupFirst xs).Nodup :=
  nodup_dedupFirstAux xs []

theorem dedupFirstAux_append (x : String) :
    ∀ (xs seen : List String),
      dedupFirstAux seen (xs ++ [x]) =
        dedupFirstAux seen xs ++ (if x ∈ seen ∨ x ∈ xs then [] else [x]) := by
  intro xs
  induction xs with
  | nil =>
    intro seen
    simp only [List.nil_append, dedupFirstAux, List.not_mem_nil, or_false]
    by_cases hx : x ∈ seen
    · rw [if_pos (by simpa using hx), if_pos hx]
    · rw [if_neg (by simpa using hx), if_neg hx]
  | cons y ys ih =>
    intro seen
    simp only [List.cons_append, dedupFirstAux, List.append_eq]
    by_cases hy : y ∈ seen
    · rw [if_pos (by simpa using hy), if_pos (by simpa using hy), ih seen]
      by_cases hxy : x = y
      · subst hxy
        simp [hy]
      · simp only [List.mem_cons]
        have he : (x ∈ seen ∨ x = y ∨ x ∈ ys) ↔ (x ∈ seen ∨ x ∈ ys) := by
          constructor
          · rintro (h | rfl | h)
            · exact Or.inl h
            · exact Or.inl hy
            · exact Or.inr h
          · rintro (h | h)
            · exact Or.inl h
            · exact Or.inr (Or.inr h)
        rw [if_congr he rfl rfl]
    · rw [if_neg (by simpa using hy), if_neg (by simpa using hy), ih (y :: seen),
        List.cons_append]
      simp only [List.mem_cons]
      have he : (x = y ∨ x ∈ seen) ∨ x ∈ ys ↔ x ∈ seen ∨ x = y ∨ x ∈ ys := by
        tauto
      rw [if_congr he rfl rfl]

theorem dedupFirst_append (x : String) (xs : List String) :
    dedupFirst (xs ++ [x]) = dedupFirst xs ++ (if x ∈ xs then [] else [x]) := by
  have h := dedupFirstAux_append x xs []
  simpa [dedupFirst] using h

theorem filter_dedupFirstAux (q : String → Bool) :
    ∀ (xs seen : List String),
      (dedupFirstAux seen xs).filter q = dedupFirstAux (seen.filter q) (xs.filter q) := by
  intro xs
  induction xs with
  | nil =>
    intro seen
    simp [dedupFirstAux]
  | cons y ys ih =>
    intro seen
    simp only [dedupFirstAux, List.filter_cons]
    by_cases hy : y ∈ seen
    · rw [if_pos (by simpa using hy)]
      by_cases hq : q y
      · have hyf : y ∈ seen.filter q := List.mem_filter.mpr ⟨hy, hq⟩
        simp only [hq, if_true, dedupFirstAux]
        rw [if_pos (by simpa using hyf)]
        exact ih seen
      · simp only [hq, Bool.false_eq_true, if_false]
        exact ih seen
    · rw [if_neg (by simpa using hy)]
      by_cases hq : q y
      · have hyf : y ∉ seen.filter q := fun hc => hy (List.mem_filter.mp hc).1
        simp only [hq, if_true, List.filter_cons, dedupFirstAux]
        rw [if_neg (by simpa using hyf), ih (y :: seen)]
        simp [List.filter_cons, hq]
      · simp only [hq, Bool.false_eq_true, if_false, List.filter_cons]
        rw [ih (y :: seen)]
        simp [List.filter_cons, hq]

theorem filter_dedupFirst (q : String → Bool) (xs : List String) :
    (dedupFirst xs).filter q = dedupFirst (xs.filter q) := by
  have h := filter_dedupFirstAux q xs []
  simpa [dedupFirst] using h

theorem clLeB_cons_iff (x y : Char) (xs ys : List Char) :
    clLeB (x :: xs) (y :: ys) = true ↔
      x.toNat < y.toNat ∨ (x.toNat = y.toNat ∧ clLeB xs ys = true) := by
  simp only [clLeB]
  by_cases h1 : x.toNat < y.toNat
  · simp [h1]
  · by_cases h2 : y.toNat < x.toNat
    · rw [if_neg h1, if_pos h2]
      constructor
      · intro h
        exact absurd h Bool.false_ne_true
      · rintro (h | ⟨h, h'⟩) <;> exfalso <;> omega
    · have h3 : x.toNat = y.toNat := by omega
      rw [if_neg h1, if_neg h2]
      constructor
      · intro h
        exact Or.inr ⟨h3, h⟩
      · rintro (h | ⟨_, h⟩)
        · omega
        · exact h

theorem clLeB_total : ∀ (a b : List Char), (clLeB a b || clLeB b a) = true := by
  intro a
  induction a with
  | nil =>
    intro b
    simp [clLeB]
  | cons x xs ih =>
    intro b
    cases b with
    | nil => simp [clLeB]
    | cons y ys =>
      rcases Bool.or_eq_true_iff.mp (ih ys) with h | h
      · by_cases hxy : x.toNat < y.toNat
        · simp [clLeB_cons_iff, hxy]
        · by_cases hyx : y.toNat < x.toNat
          · simp [clLeB_cons_iff, hyx]
          · simp [clLeB_cons_iff, h]
            omega
      · by_cases hyx : y.toNat < x.toNat
        · simp [clLeB_cons_iff, hyx]
        · by_cases hxy : x.toNat < y.toNat
          · simp [clLeB_cons_iff, hxy]
          · simp [clLeB_cons_iff, h]
            omega

theorem clLeB_trans :
    ∀ (a b c : List Char), clLeB a b = true → clLeB b c = true → clLeB a c = true := by
  intro a
  induction a with
  | nil =>
    intro b c _ _
    simp [clLeB]
  | cons x xs ih =>
    intro b c h1 h2
    cases b with
    | nil => simp [clLeB] at h1
    | cons y ys =>
      cases c with
      | nil => simp [clLeB] at h2
      | cons z zs =>
        rw [clLeB_cons_iff] at h1 h2 ⊢
        rcases h1 with h1 | ⟨h1, h1'⟩ <;> rcases h2 with h2 | ⟨h2, h2'⟩
        · exact Or.inl (by omega)
        · exact Or.inl (by omega)
        · exact Or.inl (by omega)
        · exact Or.inr ⟨by omega, ih ys zs h1' h2'⟩

theorem strLeB_total (a b : String) : (strLeB a b || strLeB b a) = true :=
  clLeB_total a.data b.data

theorem strLeB_trans (a b c : String) :
    strLeB a b = true → strLeB b c = true → strLeB a c = true :=
  clLeB_trans a.data b.data c.data

theorem clLeB_antisymm :
    ∀ (a b : List Char), clLeB a b = true → clLeB b a = true → a = b := by
  intro a
  induction a with
  | nil =>
    intro b _ h2
    cases b with
    | nil => rfl
    | cons y ys => simp [clLeB] at h2
  | cons x xs ih =>
    intro b h1 h2
    cases b with
    | nil => simp [clLeB] at h1
    | cons y ys =>
      rw [clLeB_cons_iff] at h1 h2
      rcases h1 with h1 | ⟨h1, h1'⟩ <;> rcases h2 with h2 | ⟨h2, h2'⟩
      · exfalso; omega
      · exfalso; omega
      · exfalso; omega
      · have hxy : x = y := Char.ext (UInt32.ext h1)
        rw [hxy, ih ys h1' h2']

theorem localeCompareLe_total (a b : String) :
    (localeCompareLe a b || localeCompareLe b a) = true := by
  unfold localeCompareLe
  by_cases h : a.data.map jsToLower = b.data.map jsToLower
  · rw [if_pos h, if_pos h.symm]
    exact clLeB_total b.data a.data
  · rw [if_neg h, if_neg (fun e => h e.symm)]
    exact clLeB_total _ _

theorem localeCompareLe_trans (a b c : String) :
    localeCompareLe a b = true → localeCompareLe b c = true →
      localeCompareLe a c = true := by
  unfold localeCompareLe
  by_cases hab : a.data.map jsToLower = b.data.map jsToLower <;>
    by_cases hbc : b.data.map jsToLower = c.data.map jsToLower
  · rw [if_pos hab, if_pos hbc, if_pos (hab.trans hbc)]
    intro h1 h2
    exact clLeB_trans c.data b.data a.data h2 h1
  · rw [if_pos hab, if_neg hbc, if_neg (fun e => hbc (hab.symm.trans e))]
    intro _ h2
    rw [hab]
    exact h2
  · rw [if_neg hab, if_pos hbc, if_neg (fun e => hab (e.trans hbc.symm))]
    intro h1 _
    rw [← hbc]
    exact h1
  · rw [if_neg hab, if_neg hbc]
    intro h1 h2
    by_cases hac : a.data.map jsToLower = c.data.map jsToLower
    · exfalso
      exact hab (clLeB_antisymm _ _ h1 (by rw [hac]; exact h2))
    · rw [if_neg hac]
      exact clLeB_trans _ _ _ h1 h2

theorem mem_insSorted {α : Type} (le : α → α → Bool) (x z : α) :
    ∀ l : List α, z ∈ insSorted le x l ↔ z = x ∨ z ∈ l := by
  intro l
  induction l with
  | nil => simp [insSorted]
  | cons y ys ih =>
    simp only [insSorted]
    by_cases h : le x y = true
    · rw [if_pos h]
      simp
    · rw [if_neg h]
      simp only [List.mem_cons, ih]
      tauto

theorem pairwise_insSorted {α : Type} (le : α → α → Bool)
    (htot : ∀ a b, (le a b || le b a) = true)
    (htrans : ∀ a b c, le a b = true → le b c = true → le a c = true) (x : α) :
    ∀ l : List α, l.Pairwise (fun a b => le a b = true) →
      (insSorted le x l).Pairwise (fun a b => le a b = true) := by
  intro l
  induction l with
  | nil =>
    intro _
    simp [insSorted]
  | cons y ys ih =>
    intro hp
    rcases List.pairwise_cons.mp hp with ⟨hy, hys⟩
    simp only [insSorted]
    by_cases h : le x y = true
    · rw [if_pos h]
      refine List.pairwise_cons.mpr ⟨?_, hp⟩
      intro z hz
      rcases List.mem_cons.mp hz with rfl | hz'
      · exact h
      · exact htrans x y z h (hy z hz')
    · rw [if_neg h]
      refine List.pairwise_cons.mpr ⟨?_, ih hys⟩
      intro z hz
      rcases (mem_insSorted le x z ys).mp hz with he | hz'
      · rcases Bool.or_eq_true_iff.mp (htot x y) with h' | h'
        · exact absurd h' h
        · exact he ▸ h'
      · exact hy z hz'

theorem pairwise_sortByLe {α : Type} (le : α → α → Bool)
    (htot : ∀ a b, (le a b || le b a) = true)
    (htrans : ∀ a b c, le a b = true → le b c = true → le a c = true) :
    ∀ l : List α, (sortByLe le l).Pairwise (fun a b => le a b = true) := by
  intro l
  induction l with
  | nil => simp [sortByLe]
  | cons x xs ih => exact pairwise_insSorted le htot htrans x _ ih

theorem nonblank_eq (v : String) :
    (v != "" && jsTrim v != "") = !(isBlankVariant v) := by
  simp only [isBlankVariant, bne]
  cases h1 : v == "" <;> cases h2 : jsTrim v == "" <;> simp [h1, h2]

theorem variantOpt_eq (p : ProductView) :
    variantOpt p =
      if isBlankVariant p.vehicleVariant then none else some p.vehicleVariant := by
  simp only [variantOpt, nonblank_eq]
  cases h : isBlankVariant p.vehicleVariant <;> simp [h]

theorem specModelData_append (ps : List ProductView) (p : ProductView) (m : String) :
    specModelData (ps ++ [p]) m =
      if p.vehicleModel = m then addVariant (specModelData ps m) (variantOpt p)
      else specModelData ps m := by
  by_cases hm : p.vehicleModel = m
  · rw [if_pos hm]
    have hfil : (ps ++ [p]).filter (fun q => q.vehicleModel == m) =
        ps.filter (fun q => q.vehicleModel == m) ++ [p] := by
      rw [List.filter_append]
      simp [List.filter_cons, hm]
    by_cases hb : isBlankVariant p.vehicleVariant = true
    · have hv : variantOpt p = none := by rw [variantOpt_eq, if_pos hb]
      rw [hv]
      simp only [specModelData, specModelVariants, addVariant, hfil, List.map_append,
        List.filter_append, List.any_append, List.map_cons, List.map_nil,
        ModelData.mk.injEq]
      constructor
      · have : [p.vehicleVariant].filter (fun v => v != "" && jsTrim v != "") = [] := by
          simp [List.filter_cons, nonblank_eq, hb]
        simp [this]
      · simp [List.any_cons, hb]
    · have hb' : isBlankVariant p.vehicleVariant = false := by
        cases h : isBlankVariant p.vehicleVariant
        · rfl
        · exact absurd h hb
      have hv : variantOpt p = some p.vehicleVariant := by
        rw [variantOpt_eq, if_neg (by simp [hb'])]
      rw [hv]
      simp only [specModelData, specModelVariants, addVariant, hfil, List.map_append,
        List.filter_append, List.any_append, List.map_cons, List.map_nil,
        ModelData.mk.injEq]
      constructor
      · have hsing : [p.vehicleVariant].filter (fun v => v != "" && jsTrim v != "") =
            [p.vehicleVariant] := by
          simp [List.filter_cons, nonblank_eq, hb']
        rw [hsing, dedupFirst_append]
        by_cases hmem : p.vehicleVariant ∈
            (((ps.filter (fun q => q.vehicleModel == m)).map
              (fun q => q.vehicleVariant)).filter (fun v => v != "" && jsTrim v != ""))
        · rw [if_pos hmem]
          have hcm := (mem_dedupFirst p.vehicleVariant _).mpr hmem
          simp [hcm]
        · rw [if_neg hmem]
          have hcm : p.vehicleVariant ∉ dedupFirst
              (((ps.filter (fun q => q.vehicleModel == m)).map
                (fun q => q.vehicleVariant)).filter (fun v => v != "" && jsTrim v != "")) :=
            fun h => hmem ((mem_dedupFirst _ _).mp h)
          simp [hcm]
      · simp [List.any_cons, hb']
  · rw [if_neg hm]
    have hfil : (ps ++ [p]).filter (fun q => q.vehicleModel == m) =
        ps.filter (fun q => q.vehicleModel == m) := by
      rw [List.filter_append]
      simp [List.filter_cons, hm]
    simp [specModelData, specModelVariants, hfil]

theorem specModelData_not_mem (ps : List ProductView) (m : String)
    (h : m ∉ ps.map (fun p => p.vehicleModel)) :
    specModelData ps m = ⟨[], false⟩ := by
  have hf : ps.filter (fun p => p.vehicleModel == m) = [] := by
    refine List.filter_eq_nil_iff.mpr (fun p hp => ?_)
    simp only [beq_iff_eq]
    intro he
    exact h (List.mem_map.mpr ⟨p, hp, he⟩)
  simp [specModelData, specModelVariants, hf, dedupFirst, dedupFirstAux]

theorem mapInsert_map (l : List String) (D : String → ModelData) (m0 : String)
    (v0 : Option String) (hl : l.Nodup) :
    mapInsert (l.map (fun m => (m, D m))) m0 v0 =
      if m0 ∈ l then l.map (fun m => (m, if m = m0 then addVariant (D m) v0 else D m))
      else l.map (fun m => (m, D m)) ++ [(m0, addVariant ⟨[], false⟩ v0)] := by
  induction l with
  | nil => simp [mapInsert]
  | cons k ks ih =>
    rcases List.nodup_cons.mp hl with ⟨hk, hks⟩
    simp only [List.map_cons, mapInsert]
    by_cases hkm : k = m0
    · subst hkm
      rw [if_pos rfl, if_pos (List.mem_cons_self k ks)]
      simp only [List.map_cons, if_pos rfl]
      congr 1
      refine (List.map_congr_left (fun m hm => ?_)).symm
      have : m ≠ k := fun he => hk (he ▸ hm)
      simp [this]
    · rw [if_neg hkm, ih hks]
      by_cases hm : m0 ∈ ks
      · rw [if_pos hm, if_pos (List.mem_cons_of_mem k hm)]
        simp [hkm]
      · rw [if_neg hm,
          if_neg (by
            simp only [List.mem_cons, not_or]
            exact ⟨fun h => hkm h.symm, hm⟩)]
        simp

theorem buildModelMap_append (ps : List ProductView) (p : ProductView) :
    buildModelMap (ps ++ [p]) = mapInsert (buildModelMap ps) p.vehicleModel (variantOpt p) := by
  simp [buildModelMap, List.foldl_append]

/-- The imperative `modelVariantMap` fold equals its declarative
description: one entry per distinct model in first-occurrence order,
carrying that model's blank-variant flag and its distinct non-blank
variants in first-appearance order. -/
theorem buildModelMap_spec (ps : List ProductView) :
    buildModelMap ps =
      (dedupFirst (ps.map (fun p => p.vehicleModel))).map
        (fun m => (m, specModelData ps m)) := by
  induction ps using List.reverseRecOn with
  | nil => simp [buildModelMap, dedupFirst, dedupFirstAux]
  | append_singleton ps p ih =>
    rw [buildModelMap_append, ih, mapInsert_map _ _ _ _ (nodup_dedupFirst _),
      List.map_append]
    simp only [List.map_cons, List.map_nil]
    rw [dedupFirst_append]
    by_cases hm : p.vehicleModel ∈ ps.map (fun q => q.vehicleModel)
    · rw [if_pos ((mem_dedupFirst _ _).mpr hm), if_pos hm, List.append_nil]
      refine List.map_congr_left (fun m hmem => ?_)
      rw [specModelData_append]
      by_cases he : m = p.vehicleModel
      · subst he
        simp
      · rw [if_neg he, if_neg (fun h => he h.symm)]
    · rw [if_neg (fun hc => hm ((mem_dedupFirst _ _).mp hc)), if_neg hm, List.map_append]
      congr 1
      · refine List.map_congr_left (fun m hmem => ?_)
        have hne : m ≠ p.vehicleModel := by
          intro he
          exact hm (he ▸ (mem_dedupFirst _ _).mp hmem)
        rw [specModelData_append, if_neg (fun h => hne h.symm)]
      · simp only [List.map_cons, List.map_nil]
        rw [specModelData_append, if_pos rfl, specModelData_not_mem ps _ hm]

/-- Reduction of the variant filter in base-variant mode. -/
theorem variantFilter_base_eq (v : String) (hits : List Product)
    (hv : (v != "") = true) (hne : (normalizeText (some v) != "") = true)
    (hreq : isBaseVariantRequest (normalizeText (some v)) = true) :
    variantFilter (some v) hits = hits.filter (fun p => isBlankVariant p.vehicleVariant) := by
  simp only [variantFilter, jsTruthy, hv, hne, hreq, if_true]

/-- C3: when the supplied variant normalizes to one of the fixed synonyms
`standard`, `base`, `basic`, `base variant`, the variant filter keeps
exactly the records whose `vehicleVariant` is empty or whitespace-only —
never a record with a non-blank variant, even one containing "base". -/
theorem variantFilter_base_synonym (v : String) (hits : List Product) (p : Product)
    (h : normalizeStr v ∈ baseVariantTerms) :
    p ∈ variantFilter (some v) hits ↔ p ∈ hits ∧ isBlankVariant p.vehicleVariant = true := by
  have h' : normalizeStr v = "standard" ∨ normalizeStr v = "base" ∨
      normalizeStr v = "basic" ∨ normalizeStr v = "base variant" := by
    simpa [baseVariantTerms] using h
  have hnorm : normalizeText (some v) = normalizeStr v := rfl
  have hne : (normalizeText (some v) != "") = true := by
    rw [hnorm]
    rcases h' with h'' | h'' | h'' | h'' <;> rw [h''] <;> decide
  have hreq : isBaseVariantRequest (normalizeText (some v)) = true := by
    rw [hnorm]
    rcases h' with h'' | h'' | h'' | h'' <;> rw [h''] <;> decide
  have hv : (v != "") = true := by
    rcases eq_or_ne v "" with rfl | hv0
    · exfalso
      revert h'
      decide
    · simpa [bne_iff_ne] using hv0
  rw [variantFilter_base_eq v hits hv hne hreq, List.mem_filter]

/-- C3 witness: the synonym `"base variant"` selects the blank-variant
record and rejects the record whose variant name contains `Base`. -/
theorem variantFilter_base_synonym_witness :
    (⟨"B1", "Towbar", "VW", "Golf", ""⟩ : Product) ∈
        variantFilter (some "base variant") c3Hits ∧
    ¬ ((⟨"B2", "Towbar", "VW", "Golf", "Base-X"⟩ : Product) ∈
        variantFilter (some "base variant") c3Hits) := by
  constructor
  · exact (variantFilter_base_synonym "base variant" c3Hits _ (by decide)).mpr
      ⟨by decide, by decide⟩
  · intro hmem
    have h2 := (variantFilter_base_synonym "base variant" c3Hits
      ⟨"B2", "Towbar", "VW", "Golf", "Base-X"⟩ (by decide)).mp hmem
    exact absurd h2.2 (by decide)

/-- C5: whenever the search reaches normal result formatting (no
disambiguation branch fires), the reported total is the full number of
survivors, the returned products are the prefix of at most
`clamp(limit, 1, 100)` survivors (20 when no limit is given) in catalog
order, and the display cap never reduces the reported total. -/
theorem catalog_total_and_cap (catalog : List Product) (name : String) (limit : Option Int)
    (b m v t : Option String)
    (h1 : multiModelFires catalog name (resolveFitment b m v t) = false)
    (h2 : multiVariantFires catalog name (resolveFitment b m v t) = false) :
    (searchCatalog catalog name limit b m v t).structuredContent.total =
        (allProductsOf catalog name (resolveFitment b m v t)).length ∧
    (searchCatalog catalog name limit b m v t).structuredContent.products =
        (allProductsOf catalog name (resolveFitment b m v t)).take (safeLimit limit).toNat ∧
    (searchCatalog catalog name limit b m v t).structuredContent.products.length ≤
        (searchCatalog catalog name limit b m v t).structuredContent.total ∧
    (searchCatalog catalog name limit b m v t).structuredContent.products <+:
        allProductsOf catalog name (resolveFitment b m v t) ∧
    safeLimit none = 20 ∧ ∀ l : Int, safeLimit (some l) = min (max l 1) 100 := by
  have hs : (searchCatalog catalog name limit b m v t).structuredContent =
      ⟨(allProductsOf catalog name (resolveFitment b m v t)).length,
       (allProductsOf catalog name (resolveFitment b m v t)).take (safeLimit limit).toNat⟩ := by
    simp only [searchCatalog, h1, h2, Bool.false_eq_true, if_false]
    split
    · rfl
    · split
      · rfl
      · rfl
  refine ⟨by rw [hs], by rw [hs], ?_, ?_, rfl, fun l => rfl⟩
  · rw [hs]
    simpa [List.length_take] using Nat.min_le_right _ _
  · rw [hs]
    exact ⟨_, List.take_append_drop _ _⟩

/-- C5 witness. -/
theorem catalog_total_and_cap_witness :
    (searchCatalog c6Catalog "brake pad" (some 5) (some "VW") (some "Golf") none none).structuredContent.total = 1 :=
  ((catalog_total_and_cap c6Catalog "brake pad" (some 5) (some "VW") (some "Golf") none none
    (by decide) (by decide)).1).trans (by decide)

/-- C1 counterexample: on a VW catalog whose `Golf` records carry variants
in the order `Z`, `A`, the MULTI_MODEL prompt lists `Golf (Z, A)` — the
variant set of a model is not sorted alphabetically by variant name as the
claim states (models are sorted, variants keep first-appearance order). -/
theorem catalog_multiModel_variant_order_cex :
    searchCatalog mmCatalog "brake" none (some "VW") (some "Golf") none none =
      ⟨⟨0, []⟩,
       "I found brake for these VW models:\n Golf (Z, A)\n Golf Plus (base variant)\n\nWhich model and variant is your vehicle?"⟩ ∧
    jsIncludes (searchCatalog mmCatalog "brake" none (some "VW") (some "Golf") none none).text
      "(A, Z)" = false := by
  decide

/-- C1 (amended): when MULTI_MODEL fires the search returns `total == 0`
with an empty products list and the multi-model prompt over the full match
set; the prompt's enumeration has one entry per distinct model in
first-occurrence order (blank-variant records contribute a leading
`base variant` label, the remaining distinct non-blank variants appear in
order of first appearance, not sorted), and the enumerated models are
sorted alphabetically by the locale comparator (case-insensitive at the
primary level, as `localeCompare`). -/
theorem catalog_multiModel_prompt (catalog : List Product) (name : String)
    (limit : Option Int) (b m v t : Option String)
    (h : multiModelFires catalog name (resolveFitment b m v t) = true) :
    searchCatalog catalog name limit b m v t =
      ⟨⟨0, []⟩, multiModelText name ((resolveFitment b m v t).brand.getD "")
        (allProductsOf catalog name (resolveFitment b m v t))⟩ ∧
    buildModelMap (allProductsOf catalog name (resolveFitment b m v t)) =
      (dedupFirst ((allProductsOf catalog name (resolveFitment b m v t)).map
        (fun p => p.vehicleModel))).map
        (fun mo => (mo, specModelData (allProductsOf catalog name (resolveFitment b m v t)) mo)) ∧
    ((sortByLe (fun a b => localeCompareLe a.1 b.1)
        (buildModelMap (allProductsOf catalog name (resolveFitment b m v t)))).map
      Prod.fst).Pairwise (fun a b => localeCompareLe a b = true) := by
  refine ⟨by simp [searchCatalog, h], buildModelMap_spec _, ?_⟩
  have hp := pairwise_sortByLe (fun a b : String × ModelData => localeCompareLe a.1 b.1)
    (fun a b => localeCompareLe_total a.1 b.1)
    (fun a b c h1 h2 => localeCompareLe_trans a.1 b.1 c.1 h1 h2)
    (buildModelMap (allProductsOf catalog name (resolveFitment b m v t)))
  exact List.pairwise_map.mpr hp

/-- C1 witness: on the two-model fixture the full MULTI_MODEL response. -/
theorem catalog_multiModel_prompt_witness :
    searchCatalog mmCatalog "brake" (some 20) (some "VW") (some "Golf") none none =
      ⟨⟨0, []⟩,
       "I found brake for these VW models:\n Golf (Z, A)\n Golf Plus (base variant)\n\nWhich model and variant is your vehicle?"⟩ :=
  ((catalog_multiModel_prompt mmCatalog "brake" (some 20) (some "VW") (some "Golf")
    none none (by decide)).1).trans (by decide)

/-- C2 counterexample: with the variant set `{"", "Alpha"}` the
MULTI_VARIANT prompt lists `base variant` before `Alpha` — the rendered
list is not sorted alphabetically as the claim states (the blank-variant
label always comes first). -/
theorem catalog_multiVariant_order_cex :
    searchCatalog mvCatalog "brake" none (some "VW") (some "Golf") none none =
      ⟨⟨0, []⟩,
       "I found brake for these VW Golf variants:\n base variant\n Alpha\n\nCan you specify which variant your vehicle is?"⟩ ∧
    jsIncludes (searchCatalog mvCatalog "brake" none (some "VW") (some "Golf") none none).text
      " Alpha\n base variant" = false := by
  decide

/-- C2 (amended): when MULTI_VARIANT fires the search returns `total == 0`
with an empty products list and the variant prompt over the full match set;
the listed variants are the `base variant` label first (exactly when some
record has a blank variant) followed by the distinct non-blank variant
names sorted in ascending lexicographic order. -/
theorem catalog_multiVariant_prompt (catalog : List Product) (name : String)
    (limit : Option Int) (b m v t : Option String)
    (h : multiVariantFires catalog name (resolveFitment b m v t) = true) :
    searchCatalog catalog name limit b m v t =
      ⟨⟨0, []⟩, multiVariantText name ((resolveFitment b m v t).brand.getD "")
        ((resolveFitment b m v t).model.getD "")
        (allProductsOf catalog name (resolveFitment b m v t))⟩ ∧
    variantListOf (allProductsOf catalog name (resolveFitment b m v t)) =
      (if (allProductsOf catalog name (resolveFitment b m v t)).any
          (fun p => isBlankVariant p.vehicleVariant) then ["base variant"] else []) ++
        sortByLe strLeB (dedupFirst
          (((allProductsOf catalog name (resolveFitment b m v t)).map
            (fun p => p.vehicleVariant)).filter (fun w => w != "" && jsTrim w != ""))) ∧
    (sortByLe strLeB (dedupFirst
        (((allProductsOf catalog name (resolveFitment b m v t)).map
          (fun p => p.vehicleVariant)).filter
            (fun w => w != "" && jsTrim w != "")))).Pairwise
      (fun a b => strLeB a b = true) := by
  have hm : multiModelFires catalog name (resolveFitment b m v t) = false := by
    simp only [multiVariantFires, Bool.and_eq_true, decide_eq_true_eq] at h
    have hlen : ¬ (1 < (uniqueModelsOf
        (allProductsOf catalog name (resolveFitment b m v t))).length) := by
      omega
    simp [multiModelFires, hlen]
  refine ⟨by simp [searchCatalog, hm, h], ?_, ?_⟩
  · simp only [variantListOf, filter_dedupFirst]
  · exact pairwise_sortByLe strLeB strLeB_total strLeB_trans _

/-- C2 witness: on the one-model fixture the full MULTI_VARIANT response. -/
theorem catalog_multiVariant_prompt_witness :
    searchCatalog mvCatalog "brake" (some 20) (some "VW") (some "Golf") none none =
      ⟨⟨0, []⟩,
       "I found brake for these VW Golf variants:\n base variant\n Alpha\n\nCan you specify which variant your vehicle is?"⟩ :=
  ((catalog_multiVariant_prompt mvCatalog "brake" (some 20) (some "VW") (some "Golf")
    none none (by decide)).1).trans (by decide)

/-- C10 witness. -/
theorem disambiguation_limit_independent_witness :
    searchCatalog mmCatalog "brake" (some 1) (some "VW") (some "Golf") none none =
      searchCatalog mmCatalog "brake" (some 50) (some "VW") (some "Golf") none none :=
  disambiguation_limit_independent mmCatalog "brake" (some 1) (some 50)
    (some "VW") (some "Golf") none none (by decide)

end Weltmann
